import Mathlib

/-!
Verification of the diario-rio scraper (src/new.py and src/scraper.py).

The development shallowly embeds the two scripts:

* the HTTP layer is abstracted as a predetermined response for each attempt
  (a function from attempt index to a response classification);
* the retry wrapper of new.py (three attempts, linear backoff, 404 cut-off)
  is modelled by a structurally recursive loop that also reports how many
  attempts were performed and which backoff delays were slept;
* the binary boundary search shared by find_latest_edition_binary,
  get_page_count (new.py) and descobrir_total_paginas (scraper.py) is
  modelled by a fuel-indexed loop over the integers (the fuel equals the
  interval size, which always suffices); it also returns the trace of
  probed midpoints;
* page downloads, the resume ledger and the assembly order are modelled
  as pure functions over explicit file/response states.

Integer division on the integers in Lean agrees with floor division for the
positive divisor 2 used by the scripts, so the midpoint computation is the
literal translation of the source.
-/

/-- Classification of one HTTP round trip, as distinguished by the source:
status 200 with a body, status 404, a 5xx status, a raised exception, and
any other status (which new.py retries without sleeping). -/
inductive Resp where
  | ok (body : List Nat)
  | notFound
  | serverErr
  | netErr
  | otherStatus
deriving DecidableEq, Repr

/-- The value fetch_with_retry in new.py returns: bytes (status 200 on GET),
True (status 200 on HEAD), or None (status 404 or exhausted retries). -/
inductive FetchOut where
  | bytes (body : List Nat)
  | headOk
  | fnone
deriving DecidableEq, Repr

/-- RETRIES = 3 in new.py. -/
def RETRIES : Nat := 3

/-- The backoff slept before retrying: 0.5 * (attempt + 1) seconds, where
attempt is the 0-based loop index, so the attempt number is attempt + 1. -/
def backoff (attempt : Nat) : ℚ := (1 / 2 : ℚ) * ((attempt : ℚ) + 1)

/-- The retry loop of fetch_with_retry in new.py, recursing on remaining
attempts.  Given the predetermined response of each attempt it returns the
result value, the number of attempts performed, and the list of backoff
delays slept, in order.  Status 200 and 404 return immediately; 5xx and
exceptions sleep then retry; any other status retries without sleeping. -/
def fetch_loop (resps : Nat → Resp) (isHead : Bool) : Nat → Nat → FetchOut × Nat × List ℚ
  | 0, attempt => (FetchOut.fnone, attempt, [])
  | remaining + 1, attempt =>
    match resps attempt with
    | Resp.ok body =>
      (if isHead then FetchOut.headOk else FetchOut.bytes body, attempt + 1, [])
    | Resp.notFound => (FetchOut.fnone, attempt + 1, [])
    | Resp.serverErr =>
      let r := fetch_loop resps isHead remaining (attempt + 1)
      (r.1, r.2.1, backoff attempt :: r.2.2)
    | Resp.netErr =>
      let r := fetch_loop resps isHead remaining (attempt + 1)
      (r.1, r.2.1, backoff attempt :: r.2.2)
    | Resp.otherStatus =>
      let r := fetch_loop resps isHead remaining (attempt + 1)
      (r.1, r.2.1, r.2.2)

/-- fetch_with_retry of new.py: the retry loop run for RETRIES attempts. -/
def fetch_with_retry (resps : Nat → Resp) (isHead : Bool) : FetchOut × Nat × List ℚ :=
  fetch_loop resps isHead RETRIES 0

/-- The binary boundary-search loop shared by find_latest_edition_binary and
get_page_count in new.py and descobrir_total_paginas in scraper.py:
while low <= high: mid = (low + high) // 2; if the predicate holds at mid,
record it and search above, else search below.  The fuel argument bounds the
number of iterations; it is instantiated with the interval size, which always
suffices because each iteration at least halves the interval.  The second
component is the trace of probed midpoints, in order. -/
def fbFuel (p : Int → Bool) : Nat → Int → Int → Int → Int × List Int
  | 0, _, _, lastFound => (lastFound, [])
  | fuel + 1, low, high, lastFound =>
    if low ≤ high then
      let mid := (low + high) / 2
      let r := if p mid then fbFuel p fuel (mid + 1) high mid
               else fbFuel p fuel low (mid - 1) lastFound
      (r.1, mid :: r.2)
    else (lastFound, [])

/-- The boundary search on [low, high] with initial lastFound value,
returning the final lastFound and the trace of probed midpoints. -/
def findBoundaryT (p : Int → Bool) (low high lastFound : Int) : Int × List Int :=
  fbFuel p (high + 1 - low).toNat low high lastFound

/-- find_latest_edition_binary of new.py: boundary search over editions
7500..9000 with lastFound initialised to 0, probing page 1 of each edition.
The probe argument abstracts the truthiness of check_edition_exists. -/
def find_latest_edition_binary (probe : Int → Bool) : Int × List Int :=
  findBoundaryT probe 7500 9000 0

/-- get_page_count of new.py: first probes page 1 (check_edition_exists) and
returns 0 if it is absent, otherwise runs the boundary search on pages
1..3000.  The second component records every page index whose existence was
probed, in order (the leading 1 is the explicit pre-check). -/
def get_page_count (probe : Int → Bool) : Int × List Int :=
  if probe 1 then
    ((findBoundaryT probe 1 3000 0).1, 1 :: (findBoundaryT probe 1 3000 0).2)
  else (0, [1])

/-- descobrir_total_paginas of scraper.py: a HEAD request on page 1 that does
not yield status 200 (or raises) makes it return 0; otherwise the boundary
search runs on pages 1..3000.  pageOneOk abstracts the outcome of the
pre-check request and probe the per-page condition used inside the loop
(status 200 and a pdf content type, exceptions counting as false).  The
second component records the page indices probed over the network. -/
def descobrir_total_paginas (pageOneOk : Bool) (probe : Int → Bool) : Int × List Int :=
  if pageOneOk then
    ((findBoundaryT probe 1 3000 0).1, 1 :: (findBoundaryT probe 1 3000 0).2)
  else (0, [1])

/-- The 4-byte signature %PDF. -/
def pdfSig : List Nat := [0x25, 0x50, 0x44, 0x46]

/-- download_page of new.py.  If the destination already exists it returns
True and writes nothing.  Otherwise it fetches with retry; only a non-empty
bytes payload starting with %PDF is written (second component) and reported
as success; anything else writes nothing and reports False. -/
def download_page (destExists : Bool) (resps : Nat → Resp) : Bool × Option (List Nat) :=
  if destExists then (true, none)
  else
    match (fetch_with_retry resps false).1 with
    | FetchOut.bytes content =>
      if !content.isEmpty && pdfSig.isPrefixOf content then (true, some content)
      else (false, none)
    | _ => (false, none)

/-- baixar_pagina_pdf of scraper.py.  If the cached file exists it returns
(page, True) and writes nothing.  Otherwise a single GET is issued: on
status 200 the body is written unconditionally (no signature check) and the
result is (page, False); any other status or an exception yields
(page, None) with nothing written.  The first component models the Python
True / False / None status, the second what is written to the cache file. -/
def baixar_pagina_pdf (destExists : Bool) (resp : Resp) : Option Bool × Option (List Nat) :=
  if destExists then (some true, none)
  else
    match resp with
    | Resp.ok body => (some false, some body)
    | _ => (none, none)

/-- State of the edicoes_baixadas.json backing file. -/
inductive FileState where
  | missing
  | corrupt
  | valid (ids : List Int)
deriving DecidableEq

/-- carregar_edicoes_baixadas of scraper.py: a missing file yields the empty
set; an existing file is parsed by json.load with no exception handler, so
undecodable content raises (modelled as an error); valid content yields the
decoded set. -/
def carregar_edicoes_baixadas : FileState → Except Unit (Finset Int)
  | FileState.missing => Except.ok ∅
  | FileState.corrupt => Except.error ()
  | FileState.valid ids => Except.ok ids.toFinset

/-- The selection in scraper.py main: editions already in the ledger are
filtered out before any processing. -/
def edicoes_novas (baixadas : Finset Int) (edicoes : List Int) : List Int :=
  edicoes.filter (fun e => decide (e ∉ baixadas))

/-- The order in which fast_merge_pdfs of new.py receives the page files:
process_edition sorts the globbed files by their numeric stem. -/
def fast_merge_order (files : List Int) : List Int :=
  files.mergeSort (fun a b => decide (a ≤ b))

/-- The order in which consolidar_pdfs of scraper.py appends pages: it walks
p = 1..total in order and appends exactly the pages whose cache file exists
(retrieved). -/
def consolidar_order (retrieved : Nat → Bool) (total : Nat) : List Nat :=
  (List.range' 1 total).filter retrieved

/-- process_edition of new.py, instrumented with the number of network
requests it issues.  If the final artifact exists with size above 1024 bytes
it returns True immediately with zero requests.  Otherwise it runs the page
count search (one request per trace entry), and if pages were found it
issues one download per page; it succeeds when any download succeeded. -/
def process_edition (artifactBig : Bool) (probe : Int → Bool) (dl : Int → Bool) : Bool × Nat :=
  if artifactBig then (true, 0)
  else
    if (get_page_count probe).1 = 0 then (false, (get_page_count probe).2.length)
    else
      (((List.range' 1 (get_page_count probe).1.toNat).map (fun pg => dl (Int.ofNat pg))).any id,
        (get_page_count probe).2.length + (get_page_count probe).1.toNat)

/-- One iteration of the selection loop in new.py main for a candidate
edition: check_edition_exists is always called first (one request), and only
if it reports existence is process_edition entered. -/
def main_edition_requests (pageOneExists artifactBig : Bool) (probe : Int → Bool)
    (dl : Int → Bool) : Nat :=
  1 + (if pageOneExists then (process_edition artifactBig probe dl).2 else 0)

/-- Exiting the loop: once low exceeds high the search returns lastFound
immediately with an empty trace, for every fuel value. -/
theorem fbFuel_exit (p : Int → Bool) (fuel : Nat) (low high lf : Int) (h : high < low) :
    fbFuel p fuel low high lf = (lf, []) := by
  cases fuel with
  | zero => rfl
  | succ fuel => simp only [fbFuel, if_neg (by omega : ¬ low ≤ high)]

/-- One iteration of the loop when the midpoint satisfies the predicate:
record it and continue above the midpoint. -/
theorem fbFuel_step_true (p : Int → Bool) (fuel : Nat) (low high lf : Int)
    (hlh : low ≤ high) (hp : p ((low + high) / 2) = true) :
    fbFuel p (fuel + 1) low high lf =
      ((fbFuel p fuel ((low + high) / 2 + 1) high ((low + high) / 2)).1,
        (low + high) / 2 :: (fbFuel p fuel ((low + high) / 2 + 1) high ((low + high) / 2)).2) := by
  simp only [fbFuel, if_pos hlh, hp, if_true]

/-- One iteration of the loop when the midpoint fails the predicate:
continue below the midpoint. -/
theorem fbFuel_step_false (p : Int → Bool) (fuel : Nat) (low high lf : Int)
    (hlh : low ≤ high) (hp : p ((low + high) / 2) = false) :
    fbFuel p (fuel + 1) low high lf =
      ((fbFuel p fuel low ((low + high) / 2 - 1) lf).1,
        (low + high) / 2 :: (fbFuel p fuel low ((low + high) / 2 - 1) lf).2) := by
  simp only [fbFuel, if_pos hlh, hp, Bool.false_eq_true, if_false]

/-- The result of the boundary loop is either the initial lastFound or a
probed point inside the interval where the predicate held.  No assumption on
the predicate is needed. -/
theorem fbFuel_mem (p : Int → Bool) :
    ∀ (fuel : Nat) (low high lf : Int),
      (fbFuel p fuel low high lf).1 = lf ∨
        (low ≤ (fbFuel p fuel low high lf).1 ∧ (fbFuel p fuel low high lf).1 ≤ high ∧
          p ((fbFuel p fuel low high lf).1) = true) := by
  intro fuel
  induction fuel with
  | zero => intro low high lf; left; rfl
  | succ fuel ih =>
    intro low high lf
    by_cases hlh : low ≤ high
    · have hmlo : low ≤ (low + high) / 2 := by omega
      have hmhi : (low + high) / 2 ≤ high := by omega
      by_cases hp : p ((low + high) / 2) = true
      · rw [fbFuel_step_true p fuel low high lf hlh hp]
        rcases ih ((low + high) / 2 + 1) high ((low + high) / 2) with h | h
        · right; rw [h]; exact ⟨hmlo, hmhi, hp⟩
        · right; exact ⟨by omega, h.2.1, h.2.2⟩
      · rw [Bool.not_eq_true] at hp
        rw [fbFuel_step_false p fuel low high lf hlh hp]
        rcases ih low ((low + high) / 2 - 1) lf with h | h
        · left; exact h
        · right; exact ⟨h.1, by omega, h.2.2⟩
    · rw [fbFuel_exit p (fuel + 1) low high lf (by omega)]; left; rfl

/-- If the predicate is false everywhere on the interval, the loop never
updates lastFound and returns the initial value. -/
theorem fbFuel_all_false (p : Int → Bool) :
    ∀ (fuel : Nat) (low high lf : Int),
      (∀ x : Int, low ≤ x → x ≤ high → p x = false) →
      (fbFuel p fuel low high lf).1 = lf := by
  intro fuel
  induction fuel with
  | zero => intro low high lf _; rfl
  | succ fuel ih =>
    intro low high lf hall
    by_cases hlh : low ≤ high
    · have hp : p ((low + high) / 2) = false := hall _ (by omega) (by omega)
      rw [fbFuel_step_false p fuel low high lf hlh hp]
      exact ih low ((low + high) / 2 - 1) lf (fun x h1 h2 => hall x h1 (by omega))
    · rw [fbFuel_exit p (fuel + 1) low high lf (by omega)]

/-- Main correctness of the boundary loop: with enough fuel (the interval
size suffices), a monotone non-increasing predicate that holds somewhere on
[low, high] makes the loop return the greatest point of the interval where
the predicate holds. -/
theorem fbFuel_greatest (p : Int → Bool) :
    ∀ (fuel : Nat) (low high lf : Int),
      (high + 1 - low).toNat ≤ fuel →
      (∀ x y : Int, low ≤ x → x ≤ y → y ≤ high → p y = true → p x = true) →
      (∃ x : Int, low ≤ x ∧ x ≤ high ∧ p x = true) →
      p ((fbFuel p fuel low high lf).1) = true ∧
      low ≤ (fbFuel p fuel low high lf).1 ∧
      (fbFuel p fuel low high lf).1 ≤ high ∧
      ∀ y : Int, low ≤ y → y ≤ high → p y = true → y ≤ (fbFuel p fuel low high lf).1 := by
  intro fuel
  induction fuel with
  | zero =>
    intro low high lf hfuel _ hex
    obtain ⟨x, hx1, hx2, _⟩ := hex
    omega
  | succ fuel ih =>
    intro low high lf hfuel mono hex
    obtain ⟨x, hx1, hx2, hx3⟩ := hex
    have hlh : low ≤ high := le_trans hx1 hx2
    have hmlo : low ≤ (low + high) / 2 := by omega
    have hmhi : (low + high) / 2 ≤ high := by omega
    by_cases hp : p ((low + high) / 2) = true
    · rw [fbFuel_step_true p fuel low high lf hlh hp]
      by_cases hex2 : ∃ y : Int, (low + high) / 2 + 1 ≤ y ∧ y ≤ high ∧ p y = true
      · have ih' := ih ((low + high) / 2 + 1) high ((low + high) / 2)
          (by omega)
          (fun a b ha hab hb hpb => mono a b (by omega) hab hb hpb) hex2
        obtain ⟨hpr, hlo', hhi', hmax'⟩ := ih'
        refine ⟨hpr, by omega, hhi', ?_⟩
        intro y hy1 hy2 hpy
        by_cases hym : y ≤ (low + high) / 2
        · omega
        · exact hmax' y (by omega) hy2 hpy
      · have hall : ∀ y : Int, (low + high) / 2 + 1 ≤ y → y ≤ high → p y = false := by
          intro y h1 h2
          cases hpy : p y with
          | false => rfl
          | true => exact absurd ⟨y, h1, h2, hpy⟩ hex2
        have hr := fbFuel_all_false p fuel ((low + high) / 2 + 1) high ((low + high) / 2) hall
        rw [hr]
        refine ⟨hp, hmlo, hmhi, ?_⟩
        intro y hy1 hy2 hpy
        by_contra hy
        exact absurd hpy (by rw [hall y (by omega) hy2]; exact Bool.false_ne_true)
    · rw [Bool.not_eq_true] at hp
      rw [fbFuel_step_false p fuel low high lf hlh hp]
      have hxlt : x ≤ (low + high) / 2 - 1 := by
        by_contra hxm
        have := mono ((low + high) / 2) x hmlo (by omega) hx2 hx3
        rw [hp] at this
        exact Bool.false_ne_true this
      have ih' := ih low ((low + high) / 2 - 1) lf
        (by omega)
        (fun a b ha hab hb hpb => mono a b ha hab (by omega) hpb)
        ⟨x, hx1, hxlt, hx3⟩
      obtain ⟨hpr, hlo', hhi', hmax'⟩ := ih'
      refine ⟨hpr, hlo', by omega, ?_⟩
      intro y hy1 hy2 hpy
      have hylt : y ≤ (low + high) / 2 - 1 := by
        by_contra hym
        have := mono ((low + high) / 2) y hmlo (by omega) hy2 hpy
        rw [hp] at this
        exact Bool.false_ne_true this
      exact hmax' y hy1 hylt hpy

/-- The loop probes at most log2 of the interval size, plus one, midpoints:
each iteration at least halves the interval. -/
theorem fbFuel_len (p : Int → Bool) :
    ∀ (fuel : Nat) (low high lf : Int),
      (fbFuel p fuel low high lf).2.length ≤ Nat.log 2 ((high + 1 - low).toNat) + 1 := by
  intro fuel
  induction fuel with
  | zero => intro low high lf; simp [fbFuel]
  | succ fuel ih =>
    intro low high lf
    by_cases hlh : low ≤ high
    · have hsz : 1 ≤ (high + 1 - low).toNat := by omega
      by_cases hp : p ((low + high) / 2) = true
      · rw [fbFuel_step_true p fuel low high lf hlh hp]
        simp only [List.length_cons]
        by_cases hend : high < (low + high) / 2 + 1
        · rw [fbFuel_exit p fuel ((low + high) / 2 + 1) high ((low + high) / 2) hend]
          simp
        · have hsub := ih ((low + high) / 2 + 1) high ((low + high) / 2)
          have hne : (high + 1 - ((low + high) / 2 + 1)).toNat ≠ 0 := by omega
          have hdou : (high + 1 - ((low + high) / 2 + 1)).toNat * 2 ≤ (high + 1 - low).toNat := by
            omega
          have hlog : Nat.log 2 ((high + 1 - ((low + high) / 2 + 1)).toNat) + 1 ≤
              Nat.log 2 ((high + 1 - low).toNat) := by
            rw [← Nat.log_mul_base (by omega) hne]
            exact Nat.log_mono_right hdou
          omega
      · rw [Bool.not_eq_true] at hp
        rw [fbFuel_step_false p fuel low high lf hlh hp]
        simp only [List.length_cons]
        by_cases hend : (low + high) / 2 - 1 < low
        · rw [fbFuel_exit p fuel low ((low + high) / 2 - 1) lf hend]
          simp
        · have hsub := ih low ((low + high) / 2 - 1) lf
          have hne : ((low + high) / 2 - 1 + 1 - low).toNat ≠ 0 := by omega
          have hdou : ((low + high) / 2 - 1 + 1 - low).toNat * 2 ≤ (high + 1 - low).toNat := by
            omega
          have hlog : Nat.log 2 (((low + high) / 2 - 1 + 1 - low).toNat) + 1 ≤
              Nat.log 2 ((high + 1 - low).toNat) := by
            rw [← Nat.log_mul_base (by omega) hne]
            exact Nat.log_mono_right hdou
          omega
    · rw [fbFuel_exit p (fuel + 1) low high lf (by omega)]
      simp

/-- Claim C1: for every predicate that is monotone non-increasing on the
integer interval [low, high], the boundary-search loop (the one instantiated
by find_latest_edition_binary, get_page_count and descobrir_total_paginas,
all of which run findBoundaryT with lastFound initialised to 0) returns the
largest x in [low, high] satisfying the predicate, and returns 0 when the
predicate is false on all of [low, high]. -/
theorem C1_boundary_search_correct (p : Int → Bool) (low high : Int)
    (mono : ∀ x y : Int, low ≤ x → x ≤ y → y ≤ high → p y = true → p x = true) :
    ((∃ x : Int, low ≤ x ∧ x ≤ high ∧ p x = true) →
      p ((findBoundaryT p low high 0).1) = true ∧
      low ≤ (findBoundaryT p low high 0).1 ∧
      (findBoundaryT p low high 0).1 ≤ high ∧
      ∀ y : Int, low ≤ y → y ≤ high → p y = true → y ≤ (findBoundaryT p low high 0).1) ∧
    ((∀ x : Int, low ≤ x → x ≤ high → p x = false) → (findBoundaryT p low high 0).1 = 0) := by
  constructor
  · intro hex
    exact fbFuel_greatest p ((high + 1 - low).toNat) low high 0 (le_refl _) mono hex
  · intro hall
    exact fbFuel_all_false p ((high + 1 - low).toNat) low high 0 hall

/-- Witness for C1 on a concrete instance: the predicate x ≤ 5 on [1, 10] is
monotone non-increasing and the search returns 5. -/
theorem C1_boundary_search_correct_witness :
    (findBoundaryT (fun x : Int => decide (x ≤ 5)) 1 10 0).1 = 5 := by
  have h := C1_boundary_search_correct (fun x : Int => decide (x ≤ 5)) 1 10
    (by intro x y hx hxy hy hpy; simp only [decide_eq_true_eq] at hpy ⊢; omega)
  have h1 := h.1 ⟨5, by norm_num⟩
  have hle : (findBoundaryT (fun x : Int => decide (x ≤ 5)) 1 10 0).1 ≤ 5 := by
    have := h1.1
    simp only [decide_eq_true_eq] at this
    exact this
  have hge := h1.2.2.2 5 (by norm_num) (by norm_num) (by norm_num)
  omega

/-- Claim C9: the boundary-search loop performs at most
ceil(log2(high - low + 1)) + 1 predicate evaluations (the trace records one
entry per evaluation; explicit pre-checks of the low endpoint happen outside
the loop and are not counted).  The bound holds for every predicate, in
particular for every monotone non-increasing one. -/
theorem C9_probe_bound (p : Int → Bool) (low high lf : Int)
    (_mono : ∀ x y : Int, low ≤ x → x ≤ y → y ≤ high → p y = true → p x = true) :
    (findBoundaryT p low high lf).2.length ≤ Nat.clog 2 ((high - low + 1).toNat) + 1 := by
  have h := fbFuel_len p ((high + 1 - low).toNat) low high lf
  have h2 := Nat.log_le_clog 2 ((high + 1 - low).toNat)
  have h3 : (high - low + 1).toNat = (high + 1 - low).toNat := by omega
  rw [findBoundaryT, h3]
  omega

/-- Witness for C9 on a concrete instance. -/
theorem C9_probe_bound_witness :
    (findBoundaryT (fun x : Int => decide (x ≤ 5)) 1 10 0).2.length ≤
      Nat.clog 2 (((10 : Int) - 1 + 1).toNat) + 1 :=
  C9_probe_bound (fun x : Int => decide (x ≤ 5)) 1 10 0
    (by intro x y hx hxy hy hpy; simp only [decide_eq_true_eq] at hpy ⊢; omega)

/-- Claim C10: whatever the remote service answers, get_page_count and
descobrir_total_paginas return a value in [0, 3000] and
find_latest_edition_binary returns 0 or a value in [7500, 9000]; moreover a
predicate that is true on the whole window (a true boundary beyond the
configured upper bound) makes the searches return exactly the upper bound,
silently capping the result. -/
theorem C10_result_range :
    (∀ probe : Int → Bool,
      0 ≤ (get_page_count probe).1 ∧ (get_page_count probe).1 ≤ 3000) ∧
    (∀ (pageOneOk : Bool) (probe : Int → Bool),
      0 ≤ (descobrir_total_paginas pageOneOk probe).1 ∧
        (descobrir_total_paginas pageOneOk probe).1 ≤ 3000) ∧
    (∀ probe : Int → Bool,
      (find_latest_edition_binary probe).1 = 0 ∨
        (7500 ≤ (find_latest_edition_binary probe).1 ∧
          (find_latest_edition_binary probe).1 ≤ 9000)) ∧
    (∀ probe : Int → Bool, (∀ x : Int, 1 ≤ x → x ≤ 3000 → probe x = true) →
      (get_page_count probe).1 = 3000) ∧
    (∀ probe : Int → Bool, (∀ x : Int, 7500 ≤ x → x ≤ 9000 → probe x = true) →
      (find_latest_edition_binary probe).1 = 9000) := by
  have hsearch : ∀ (probe : Int → Bool) (low high : Int),
      (findBoundaryT probe low high 0).1 = 0 ∨
        (low ≤ (findBoundaryT probe low high 0).1 ∧
          (findBoundaryT probe low high 0).1 ≤ high) := by
    intro probe low high
    rw [findBoundaryT]
    rcases fbFuel_mem probe ((high + 1 - low).toNat) low high 0 with h | h
    · left; exact h
    · right; exact ⟨h.1, h.2.1⟩
  have hcap : ∀ (probe : Int → Bool) (low high : Int), low ≤ high →
      (∀ x : Int, low ≤ x → x ≤ high → probe x = true) →
      (findBoundaryT probe low high 0).1 = high := by
    intro probe low high hlh hall
    rw [findBoundaryT]
    have h := fbFuel_greatest probe ((high + 1 - low).toNat) low high 0 (le_refl _)
      (fun x y hx hxy hy _ => hall x hx (by omega))
      ⟨high, hlh, le_refl _, hall high hlh (le_refl _)⟩
    have h1 := h.2.2.1
    have h2 := h.2.2.2 high hlh (le_refl _) (hall high hlh (le_refl _))
    omega
  refine ⟨?_, ?_, ?_, ?_, ?_⟩
  · intro probe
    rw [get_page_count]
    by_cases h1 : probe 1
    · rw [if_pos h1]
      rcases hsearch probe 1 3000 with h | h
      · simp [h]
      · constructor
        · simp only []; omega
        · simp only []; omega
    · rw [if_neg h1]; norm_num
  · intro pageOneOk probe
    rw [descobrir_total_paginas]
    by_cases h1 : pageOneOk
    · rw [if_pos h1]
      rcases hsearch probe 1 3000 with h | h
      · simp [h]
      · constructor
        · simp only []; omega
        · simp only []; omega
    · rw [if_neg h1]; norm_num
  · intro probe
    exact hsearch probe 7500 9000
  · intro probe hall
    have h1 : probe 1 = true := hall 1 (by norm_num) (by norm_num)
    rw [get_page_count, if_pos (by rw [h1])]
    exact hcap probe 1 3000 (by norm_num) hall
  · intro probe hall
    exact hcap probe 7500 9000 (by norm_num) hall

/-- Witness for C10: the capping branches at an everywhere-true probe. -/
theorem C10_result_range_witness :
    (get_page_count (fun _ => true)).1 = 3000 ∧
    (find_latest_edition_binary (fun _ => true)).1 = 9000 :=
  ⟨C10_result_range.2.2.2.1 (fun _ => true) (fun _ _ _ => rfl),
    C10_result_range.2.2.2.2 (fun _ => true) (fun _ _ _ => rfl)⟩

/-- Counterexample to claim C2 as stated: the value fetch_with_retry returns
for a definitive 404 (Absent) is the very same value (None) it returns when
all retries are exhausted on permanent 5xx (Indeterminate), so a caller
cannot tell the two outcomes apart. -/
theorem C2_absent_equals_indeterminate_cex :
    (fetch_with_retry (fun _ => Resp.notFound) false).1 = FetchOut.fnone ∧
    (fetch_with_retry (fun _ => Resp.serverErr) false).1 = FetchOut.fnone ∧
    (fetch_with_retry (fun _ => Resp.notFound) false).1 =
      (fetch_with_retry (fun _ => Resp.serverErr) false).1 := by
  refine ⟨rfl, rfl, rfl⟩

/-- Claim C2 (amended): on an HTTP 404 on the first attempt, fetch_with_retry
terminates immediately after one attempt, with no delay, returning None;
exhausting all retries on permanent 5xx takes three attempts and returns the
same value None, so definitive absence and retry exhaustion are not
distinguishable by the returned value. -/
theorem C2_fetch_404_amended (resps : Nat → Resp) (isHead : Bool)
    (h404 : resps 0 = Resp.notFound) :
    fetch_with_retry resps isHead = (FetchOut.fnone, 1, []) ∧
    (fetch_with_retry (fun _ => Resp.serverErr) isHead).1 = FetchOut.fnone ∧
    (fetch_with_retry (fun _ => Resp.serverErr) isHead).2.1 = 3 := by
  refine ⟨?_, rfl, rfl⟩
  simp [fetch_with_retry, RETRIES, fetch_loop, h404]

/-- Witness for the amended C2 at a concrete response sequence. -/
theorem C2_fetch_404_amended_witness :
    fetch_with_retry (fun _ => Resp.notFound) false = (FetchOut.fnone, 1, []) :=
  (C2_fetch_404_amended (fun _ => Resp.notFound) false rfl).1

/-- Counterexample to claim C3 as stated: in scraper.py, baixar_pagina_pdf
writes a 200 body that does not start with %PDF (here the bytes of an html
page) to the destination file and reports it as a fresh download, not a
failure. -/
theorem C3_scraper_writes_non_pdf_cex :
    pdfSig.isPrefixOf [60, 104, 116] = false ∧
    (baixar_pagina_pdf false (Resp.ok [60, 104, 116])).2 = some [60, 104, 116] ∧
    (baixar_pagina_pdf false (Resp.ok [60, 104, 116])).2 ≠ none ∧
    (baixar_pagina_pdf false (Resp.ok [60, 104, 116])).1 = some false := by
  refine ⟨rfl, rfl, ?_, rfl⟩
  intro h
  exact Option.noConfusion h

/-- Claim C3 (amended): in new.py, a fetched body that does not start with
%PDF is never written and the page is reported as a failure, even when the
transport returned 200; in scraper.py, however, baixar_pagina_pdf writes any
200 body unconditionally, with no signature check. -/
theorem C3_signature_amended (resps : Nat → Resp) (content body : List Nat)
    (hfetch : (fetch_with_retry resps false).1 = FetchOut.bytes content)
    (hsig : pdfSig.isPrefixOf content = false) :
    download_page false resps = (false, none) ∧
    baixar_pagina_pdf false (Resp.ok body) = (some false, some body) := by
  refine ⟨?_, rfl⟩
  simp [download_page, hfetch, hsig]

/-- Witness for the amended C3: a 200 response whose body is not a pdf. -/
theorem C3_signature_amended_witness :
    download_page false (fun _ => Resp.ok [60, 104, 116]) = (false, none) :=
  (C3_signature_amended (fun _ => Resp.ok [60, 104, 116]) [60, 104, 116] []
    rfl rfl).1

/-- Counterexample to claim C4 as stated: a corrupt backing file does not
yield the empty set; json.load raises and the error propagates. -/
theorem C4_corrupt_ledger_cex :
    carregar_edicoes_baixadas FileState.corrupt ≠ Except.ok (∅ : Finset Int) :=
  fun h => Except.noConfusion h

/-- Claim C4 (amended): carregar_edicoes_baixadas returns the empty set when
the backing file is missing, but when the file exists with undecodable
content the decode error propagates (the load fails the run). -/
theorem C4_ledger_amended :
    carregar_edicoes_baixadas FileState.missing = Except.ok (∅ : Finset Int) ∧
    carregar_edicoes_baixadas FileState.corrupt = Except.error () :=
  ⟨rfl, rfl⟩

/-- Claim C6: if the existence check of page 1 reports absence, both
get_page_count and descobrir_total_paginas return 0 having evaluated the
existence of page 1 only (the probe trace is exactly [1]; no binary-search
probe is issued). -/
theorem C6_page_one_short_circuit (probe : Int → Bool) (pageOneOk : Bool)
    (probe2 : Int → Bool) (h1 : probe 1 = false) (h2 : pageOneOk = false) :
    get_page_count probe = (0, [1]) ∧
    descobrir_total_paginas pageOneOk probe2 = (0, [1]) := by
  constructor
  · rw [get_page_count, if_neg (by simp [h1])]
  · rw [descobrir_total_paginas, if_neg (by simp [h2])]

/-- Witness for C6 at a concrete all-absent probe. -/
theorem C6_page_one_short_circuit_witness :
    get_page_count (fun _ => false) = (0, [1]) ∧
    descobrir_total_paginas false (fun _ => false) = (0, [1]) :=
  C6_page_one_short_circuit (fun _ => false) false (fun _ => false) rfl rfl

/-- Counterexample to claim C7 as stated: in new.py, an edition whose
assembled artifact already exists above the size threshold still causes one
network request (main always calls check_edition_exists before
process_edition), so the number of requests for that edition is 1, not 0. -/
theorem C7_no_network_cex :
    main_edition_requests true true (fun _ => true) (fun _ => true) = 1 ∧
    main_edition_requests true true (fun _ => true) (fun _ => true) ≠ 0 :=
  ⟨rfl, by decide⟩

/-- Claim C7 (amended): in new.py, process_edition itself performs no network
request and reports completion when the artifact exists above the 1024-byte
threshold, but the surrounding selection loop still issues exactly one
existence probe for the edition; in scraper.py, an edition recorded in the
resume ledger is filtered out of the work list, so it is processed with no
network access at all (scraper.py does not check the artifact). -/
theorem C7_skip_amended (probe dl : Int → Bool) (pageOneExists : Bool) (e : Int)
    (baixadas : Finset Int) (eds : List Int) (he : e ∈ baixadas) :
    process_edition true probe dl = (true, 0) ∧
    main_edition_requests pageOneExists true probe dl = 1 ∧
    e ∉ edicoes_novas baixadas eds := by
  refine ⟨rfl, ?_, ?_⟩
  · cases pageOneExists <;> rfl
  · intro hmem
    rw [edicoes_novas] at hmem
    simp only [List.mem_filter, decide_eq_true_eq] at hmem
    exact hmem.2 he

/-- Witness for the amended C7 at a concrete ledger. -/
theorem C7_skip_amended_witness :
    process_edition true (fun _ => true) (fun _ => true) = (true, 0) ∧
    main_edition_requests false true (fun _ => true) (fun _ => true) = 1 ∧
    (5 : Int) ∉ edicoes_novas {5} [5] :=
  C7_skip_amended (fun _ => true) (fun _ => true) false 5 {5} [5] (by decide)

/-- The order new.py merges in is sorted with respect to ≤. -/
theorem fast_merge_order_sorted_le (files : List Int) :
    (fast_merge_order files).Sorted (· ≤ ·) := by
  have h := @List.sorted_mergeSort Int (fun a b : Int => decide (a ≤ b))
    (by intro a b c hab hbc; simp at hab hbc ⊢; omega)
    (by intro a b; simp; omega) files
  exact List.Pairwise.imp (by simp) h

/-- Claim C8: for every set of retrieved pages, both assembly paths merge in
strictly ascending numeric page order, independently of arrival order: new.py
sorts the globbed files by numeric stem (so two arrival orders of the same
files give the same merge order), and scraper.py walks page indices 1..total
upwards, appending exactly the retrieved ones. -/
theorem C8_assembly_order (files : List Int) (hnd : files.Nodup)
    (retrieved : Nat → Bool) (total : Nat) :
    (fast_merge_order files).Perm files ∧
    (fast_merge_order files).Sorted (· < ·) ∧
    (∀ files2 : List Int, files2.Perm files →
      fast_merge_order files2 = fast_merge_order files) ∧
    (consolidar_order retrieved total).Sorted (· < ·) ∧
    (∀ pg : Nat, pg ∈ consolidar_order retrieved total ↔
      (1 ≤ pg ∧ pg ≤ total ∧ retrieved pg = true)) := by
  have hperm : (fast_merge_order files).Perm files := List.mergeSort_perm files _
  refine ⟨hperm, ?_, ?_, ?_, ?_⟩
  · exact List.Sorted.lt_of_le (fast_merge_order_sorted_le files)
      (hperm.nodup_iff.mpr hnd)
  · intro files2 hp
    exact List.eq_of_perm_of_sorted
      ((List.mergeSort_perm files2 _).trans (hp.trans (List.mergeSort_perm files _).symm))
      (fast_merge_order_sorted_le files2) (fast_merge_order_sorted_le files)
  · have hr : (List.range' 1 total).Sorted (· < ·) := List.pairwise_lt_range' 1 total
    exact List.Sorted.filter retrieved hr
  · intro pg
    rw [consolidar_order, List.mem_filter, List.mem_range'_1]
    constructor
    · intro h
      obtain ⟨⟨ha, hb⟩, hc⟩ := h
      exact ⟨ha, by omega, hc⟩
    · intro h
      obtain ⟨ha, hb, hc⟩ := h
      exact ⟨⟨ha, by omega⟩, hc⟩

/-- Witness for C8 at a concrete out-of-order arrival. -/
theorem C8_assembly_order_witness :
    (fast_merge_order [3, 1, 2]).Sorted (· < ·) :=
  (C8_assembly_order [3, 1, 2] (by decide) (fun _ => true) 4).2.1

/-- Claim C5: with retry bound 3, a run predetermined to succeed on attempt k
(earlier attempts failing transiently with 5xx or an exception) performs
exactly k attempts, sleeping the strictly increasing delays
0.5 * attemptNumber seconds after each failed attempt before the success;
and a permanently 5xx run performs exactly 3 attempts and then returns the
exhausted-retries value None. -/
theorem C5_retry_policy (resps : Nat → Resp) (k : Nat) (body : List Nat)
    (hk1 : 1 ≤ k) (hk3 : k ≤ 3)
    (hfail : ∀ i : Nat, i < k - 1 → resps i = Resp.serverErr ∨ resps i = Resp.netErr)
    (hsucc : resps (k - 1) = Resp.ok body) :
    (fetch_with_retry resps false).1 = FetchOut.bytes body ∧
    (fetch_with_retry resps false).2.1 = k ∧
    (fetch_with_retry resps false).2.2 =
      (List.range (k - 1)).map (fun i => (1 / 2 : ℚ) * ((i : ℚ) + 1)) ∧
    List.Chain' (· < ·) (fetch_with_retry resps false).2.2 ∧
    (∀ resps2 : Nat → Resp, (∀ i : Nat, resps2 i = Resp.serverErr) →
      fetch_with_retry resps2 false =
        (FetchOut.fnone, 3, [1 / 2, 1, 3 / 2])) := by
  have hperm : ∀ resps2 : Nat → Resp, (∀ i : Nat, resps2 i = Resp.serverErr) →
      fetch_with_retry resps2 false = (FetchOut.fnone, 3, [1 / 2, 1, 3 / 2]) := by
    intro resps2 hall
    simp [fetch_with_retry, RETRIES, fetch_loop, hall 0, hall 1, hall 2, backoff]
    norm_num
  interval_cases k
  · norm_num at hsucc
    refine ⟨?_, ?_, ?_, ?_, hperm⟩ <;>
      simp [fetch_with_retry, RETRIES, fetch_loop, hsucc]
  · norm_num at hsucc
    have h0 := hfail 0 (by norm_num)
    rcases h0 with h0 | h0 <;>
    · have hval : fetch_with_retry resps false =
          (FetchOut.bytes body, 2, [backoff 0]) := by
        simp [fetch_with_retry, RETRIES, fetch_loop, h0, hsucc]
      rw [hval]
      refine ⟨rfl, rfl, ?_, ?_, hperm⟩
      · rw [show List.range 1 = [0] from rfl]
        simp [backoff]
      · simp
  · norm_num at hsucc
    have h0 := hfail 0 (by norm_num)
    have h1 := hfail 1 (by norm_num)
    rcases h0 with h0 | h0 <;> rcases h1 with h1 | h1 <;>
    · have hval : fetch_with_retry resps false =
          (FetchOut.bytes body, 3, [backoff 0, backoff 1]) := by
        simp [fetch_with_retry, RETRIES, fetch_loop, h0, h1, hsucc]
      rw [hval]
      refine ⟨rfl, rfl, ?_, ?_, hperm⟩
      · rw [show List.range 2 = [0, 1] from rfl]
        simp [backoff]
      · simp [backoff]

/-- Witness for C5: success on the second attempt after one 5xx. -/
theorem C5_retry_policy_witness :
    (fetch_with_retry (fun i => if i = 0 then Resp.serverErr else Resp.ok [37]) false).1 =
        FetchOut.bytes [37] ∧
    (fetch_with_retry (fun i => if i = 0 then Resp.serverErr else Resp.ok [37]) false).2.1 = 2 := by
  have h := C5_retry_policy (fun i => if i = 0 then Resp.serverErr else Resp.ok [37]) 2 [37]
    (by norm_num) (by norm_num)
    (by intro i hi; left; simp [show i = 0 by omega])
    (by norm_num)
  exact ⟨h.1, h.2.1⟩
